import Mathlib

/-!
# Verification of the signal-api-tools client layer

Shallow embedding of the client convenience layer of the notebook
`notebooks/getting_started.ipynb`: the credential authenticator
(`authenticate`), the retrying request wrapper (`request`, decorated with
`backoff.on_exception(backoff.expo, RateLimitError, max_value=10)`), and the
cursor paginator (class `Paginate` with `_get`, `_post` and `__next__`).

Modelling choices, stated once:

* A JSON object whose values matter only as strings is a
  `List (String × String)` (an association list with the keys unique, which
  `parse_qs` and `json.loads` guarantee for the dictionaries the notebook
  builds).
* The network is a script: the server's side of each HTTP exchange is a
  `Page` (status code, the optional top-level `next-cursor` field of the
  decoded JSON body, and an abstract `payload` identifier standing for the
  rest of the body).  A fetch consumes the head of a `List Page`; for the
  retrying executor, whose call sites never change between attempts, the
  script is a function from the attempt index to the `Page` served.
* Python truthiness is modelled where the source relies on it: `if not nxt`
  is false for `None` and for the empty string (`isFalsy`), and
  `if not response` on a `requests.Response` uses `Response.__bool__`, which
  is `Response.ok`, i.e. false exactly when `400 ≤ status_code < 600`
  (`Resp.ok`).  `response.raise_for_status()` raises exactly when
  `400 ≤ status_code < 600`.
* The `backoff` decorator is modelled by a fuel-indexed retry loop: with
  `max_tries` left at its default `None` the decorated call retries a
  `RateLimitError` without bound (`max_value=10` only caps the wait time),
  so `.outOfFuel` means "still retrying when the modelled attempts ran out",
  not a failure the code ever reports.
-/

/-- The server's side of one HTTP exchange: the status code, the value of the
top-level `next-cursor` field of the decoded JSON body (`none` when the field
is absent), and an opaque identifier for the rest of the body (the `entities`
/ `topics` / `documents` content the callers consume). -/
structure Page where
  status : Nat
  nextCursor : Option String
  payload : Nat
deriving DecidableEq, Repr

/-- Truthiness of a `requests.Response`, whose `__bool__` returns `self.ok`:
`True` unless `raise_for_status` would raise, i.e. unless
`400 ≤ status_code < 600`. -/
def Page.ok (p : Page) : Bool :=
  decide (¬ (400 ≤ p.status ∧ p.status < 600))

/-- The request a response was produced by (`response.request`): HTTP method,
the URL without its query string (what `response_to_url` reconstructs),
headers, the query parameters at the wire level (what travels in the query
string; `parse_qs` decodes exactly these), and the fields of the JSON body
(what `json.loads(body)` decodes; `[]` when no body was sent). -/
structure Req where
  method : String
  url : String
  headers : List (String × String)
  params : List (String × String)
  body : List (String × String)
deriving DecidableEq, Repr

/-- One decoded HTTP response: the server's page together with the request
that produced it (`response.request`). -/
structure Resp where
  page : Page
  req : Req
deriving DecidableEq, Repr

/-- `response.status_code`. -/
def Resp.status_code (r : Resp) : Nat := r.page.status

/-- `bool(response)` for a `requests.Response` (see `Page.ok`). -/
def Resp.ok (r : Resp) : Bool := Page.ok r.page

/-- Python truthiness of `response.json().get('next-cursor', None)`: falsy
when the field is absent or the empty string. -/
def isFalsy : Option String → Bool
  | none => true
  | some s => decide (s = "")

/-- `d.get(k)` on a decoded JSON object / parsed query string. -/
def getVal (k : String) : List (String × String) → Option String
  | [] => none
  | (k2, v) :: rest => if k2 = k then some v else getVal k rest

/-- `d[k] = v` on a decoded JSON object / parsed query string: replace the
existing binding in place, or append a new one (Python dictionary
assignment preserves insertion order). -/
def setKey : List (String × String) → String → String → List (String × String)
  | [], k, v => [(k, v)]
  | (k2, v2) :: rest, k, v =>
    if k2 = k then (k, v) :: rest else (k2, v2) :: setKey rest k v

/-- The notebook's `authenticate(client_id, client_secret, url)`: one POST of
the form body `{grant_type: "client_credentials", client_id, client_secret}`
to `{url}/auth/token`, returning `response.json().get("access_token")`.  The
token endpoint is the script `server`, mapping the URL and the posted form
body to the decoded JSON payload of its response. -/
def authenticate (client_id client_secret url : String)
    (server : String → List (String × String) → List (String × String)) :
    Option String :=
  let token_url := url ++ "/auth/token"
  let payload := [("grant_type", "client_credentials"),
                  ("client_id", client_id),
                  ("client_secret", client_secret)]
  getVal "access_token" (server token_url payload)

/-- What one undecorated call of the notebook's `request` does with the
response it received: raise `RateLimitError` on status 429, let
`raise_for_status` raise on any other status in 400..599, and return the
response otherwise. -/
inductive AttemptResult where
  | ok (p : Page)
  | rateLimit
  | httpErr (code : Nat)
deriving DecidableEq, Repr

/-- The body of the notebook's `request(method, endpoint, params, json)`
applied to the response one HTTP call produced. -/
def request (p : Page) : AttemptResult :=
  if p.status = 429 then .rateLimit
  else if 400 ≤ p.status ∧ p.status < 600 then .httpErr p.status
  else .ok p

/-- Result of running the decorated `request` against a scripted server:
success or an HTTP error, each recording how many attempts were made, or
`.outOfFuel` when the modelled number of attempts ran out while the backoff
loop was still retrying (the code itself never stops retrying: `max_tries`
is left at its default `None`). -/
inductive RequestOutcome where
  | success (p : Page) (attempts : Nat)
  | httpError (code : Nat) (attempts : Nat)
  | outOfFuel
deriving DecidableEq, Repr

/-- `request` as decorated with
`@backoff.on_exception(backoff.expo, RateLimitError, max_value=10)`:
`RateLimitError` is caught and the same call re-issued (the `i`-th attempt
receives `script i`); `max_value` caps only the wait between attempts, and
`max_tries` is not given, so no attempt ceiling exists.  `fuel` bounds the
attempts modelled. -/
def requestWithBackoff (script : Nat → Page) : Nat → Nat → RequestOutcome
  | _, 0 => .outOfFuel
  | i, fuel + 1 =>
    match request (script i) with
    | .ok p => .success p (i + 1)
    | .httpErr c => .httpError c (i + 1)
    | .rateLimit => requestWithBackoff script (i + 1) fuel

/-- `response_to_url`: scheme, host and path of the request's URL, with the
query string stripped (`Req.url` stores exactly that; the query lives in
`Req.params`). -/
def response_to_url (response : Resp) : String := response.req.url

/-- `response_to_params`: `parse_qs` of the query string of the request that
produced `response`, i.e. the wire-level query parameters it was sent with. -/
def response_to_params (response : Resp) : List (String × String) :=
  response.req.params

/-- `response_to_body`: `json.loads` of the body the request was sent with,
`{}` when none was sent. -/
def response_to_body (response : Resp) : List (String × String) :=
  response.req.body

/-- Result of `Paginate._get` / `Paginate._post`: `finalPage` models the
`return None` taken when the continuation cursor is missing or falsy;
`fetched` carries the new response and the rest of the server script;
`scriptEnded` is an artifact of the embedding, reached only when the script
supplies no page for a fetch the code performs. -/
inductive FetchResult where
  | finalPage
  | fetched (r : Resp) (rest : List Page)
  | scriptEnded
deriving DecidableEq, Repr

/-- `Paginate._get(response)`: read `next-cursor` from the held response;
when falsy, return `None` (final page); otherwise re-issue a GET to the same
URL with the same headers and the previous query parameters, with
`from-cursor` set to the cursor, and no body. -/
def Paginate.get (response : Resp) (server : List Page) : FetchResult :=
  match response.page.nextCursor with
  | none => .finalPage
  | some nxt =>
    if nxt = "" then .finalPage
    else
      match server with
      | [] => .scriptEnded
      | p :: rest =>
        .fetched
          ⟨p, { method := "GET",
                url := response_to_url response,
                headers := response.req.headers,
                params := setKey (response_to_params response) "from-cursor" nxt,
                body := [] }⟩
          rest

/-- `Paginate._post(response)`: like `Paginate.get`, but the previous JSON
body (with `from-cursor` set to the cursor) is re-sent as the body of a POST
to the bare URL, and no query parameters are passed. -/
def Paginate.post (response : Resp) (server : List Page) : FetchResult :=
  match response.page.nextCursor with
  | none => .finalPage
  | some nxt =>
    if nxt = "" then .finalPage
    else
      match server with
      | [] => .scriptEnded
      | p :: rest =>
        .fetched
          ⟨p, { method := "POST",
                url := response_to_url response,
                headers := response.req.headers,
                params := [],
                body := setKey (response_to_body response) "from-cursor" nxt }⟩
          rest

/-- The mutable state of a `Paginate` instance (`self.response`), paired with
the remaining server script. -/
structure PagState where
  held : Option Resp
  server : List Page
deriving DecidableEq, Repr

/-- What one call of `Paginate.__next__` does: yield a response, raise
`StopIteration`, raise `RateLimitError` (caught by the backoff decorator),
let `raise_for_status` raise, raise `ValueError` on an unsupported method, or
hit the end of the server script (embedding artifact). -/
inductive NextOutcome where
  | yielded (r : Resp)
  | stopIteration
  | rateLimited
  | httpError (code : Nat)
  | valueError (method : String)
  | scriptEnded
deriving DecidableEq, Repr

/-- `Paginate.__next__`, line for line: `if not response: raise
StopIteration()` (true for a missing held response AND for a held response
with status 400..599, since `Response.__bool__` is `Response.ok`); then the
429 check raising `RateLimitError`; then `response.raise_for_status()`; then
dispatch on the held response's request method, storing the fetch result in
`self.response` and returning the previously held response.  The second
component is the state after the call; a raising call leaves it unchanged
(the source assigns `self.response` only after every raise). -/
def Paginate.next (st : PagState) : NextOutcome × PagState :=
  match st.held with
  | none => (.stopIteration, st)
  | some response =>
    if response.ok = false then (.stopIteration, st)
    else if response.status_code = 429 then (.rateLimited, st)
    else if 400 ≤ response.status_code ∧ response.status_code < 600 then
      (.httpError response.status_code, st)
    else if response.req.method = "GET" then
      match Paginate.get response st.server with
      | .finalPage => (.yielded response, ⟨none, st.server⟩)
      | .fetched r2 rest => (.yielded response, ⟨some r2, rest⟩)
      | .scriptEnded => (.scriptEnded, st)
    else if response.req.method = "POST" then
      match Paginate.post response st.server with
      | .finalPage => (.yielded response, ⟨none, st.server⟩)
      | .fetched r2 rest => (.yielded response, ⟨some r2, rest⟩)
      | .scriptEnded => (.scriptEnded, st)
    else (.valueError response.req.method, st)

/-- How a full iteration over a `Paginate` instance ends: `StopIteration`
ends the loop normally (`.done`), an HTTP error or `ValueError` propagates,
`.outOfFuel` means the modelled number of `__next__` calls ran out, and
`.scriptEnded` is the embedding artifact of an exhausted server script. -/
inductive RunOutcome where
  | done
  | httpFailure (code : Nat)
  | methodFailure (m : String)
  | outOfFuel
  | scriptEnded
deriving DecidableEq, Repr

/-- Iterating `for page in Paginate(response)`: repeatedly call
`Paginate.next`, collecting the yielded responses in order.  A
`RateLimitError` is caught by the `backoff` decorator on `__next__` (no
attempt ceiling, see `requestWithBackoff`) and the call is simply repeated on
the unchanged state.  Returns the yielded items, how the iteration ended and
the final state. -/
def Paginate.run : Nat → PagState → List Resp × RunOutcome × PagState
  | 0, st => ([], .outOfFuel, st)
  | fuel + 1, st =>
    match Paginate.next st with
    | (.stopIteration, st2) => ([], .done, st2)
    | (.rateLimited, st2) => Paginate.run fuel st2
    | (.httpError c, st2) => ([], .httpFailure c, st2)
    | (.valueError m, st2) => ([], .methodFailure m, st2)
    | (.scriptEnded, st2) => ([], .scriptEnded, st2)
    | (.yielded r, st2) =>
      let out := Paginate.run fuel st2
      (r :: out.1, out.2.1, out.2.2)

/-- The shape of a well-formed page sequence: every page but the last carries
a truthy continuation token and the last does not. -/
def cursorChain : List Page → Bool
  | [] => true
  | [p] => isFalsy p.nextCursor
  | p :: q :: rest => !(isFalsy p.nextCursor) && cursorChain (q :: rest)

/-- A GET request as the notebook's `request('GET', 'entities',
{'name': 'Environment'})` issues it. -/
def rqGET : Req :=
  ⟨"GET", "https://api.signal-ai.com/entities", [], [("name", "Environment")], []⟩

/-- First page of the concrete pagination scenarios: status 200, cursor
`"c1"`. -/
def pg0 : Page := ⟨200, some "c1", 0⟩

/-- A rate-limited page served to a paged fetch. -/
def pg429 : Page := ⟨429, some "c2", 1⟩

/-- A final successful page: status 200, no cursor. -/
def pgLast : Page := ⟨200, none, 2⟩

/-- A GET request carrying the single query parameter `a=1` (the body holds
the same field for exercising the POST analogue). -/
def rqA : Req :=
  ⟨"GET", "https://api.signal-ai.com/entities", [], [("a", "1")], [("a", "1")]⟩

/-- A successful response to `rqA` carrying continuation token `"tok"`. -/
def rA : Resp := ⟨⟨200, some "tok", 0⟩, rqA⟩

/-- The GET request `Paginate._get` derives from `rA`. -/
def rGetNext : Resp :=
  ⟨pgLast, ⟨"GET", "https://api.signal-ai.com/entities", [],
            [("a", "1"), ("from-cursor", "tok")], []⟩⟩

/-- The POST request `Paginate._post` derives from `rA`. -/
def rPostNext : Resp :=
  ⟨pgLast, ⟨"POST", "https://api.signal-ai.com/entities", [], [],
            [("a", "1"), ("from-cursor", "tok")]⟩⟩

/-- A held final response: successful, no continuation token. -/
def rDone : Resp := ⟨⟨200, none, 3⟩, rqGET⟩

/-- A held rate-limited response, as a paged fetch can store. -/
def r429 : Resp := ⟨pg429, rqGET⟩

/-- A held successful response whose request used an unsupported method. -/
def rPUT : Resp :=
  ⟨⟨200, some "c3", 4⟩, ⟨"PUT", "https://api.signal-ai.com/entities", [], [], []⟩⟩

/-! ## Helper lemmas -/

theorem ok_iff (r : Resp) :
    r.ok = true ↔ ¬ (400 ≤ r.status_code ∧ r.status_code < 600) := by
  simp [Resp.ok, Page.ok, Resp.status_code]
  omega

theorem resp_ok (p : Page) (rq : Req) : (Resp.mk p rq).ok = p.ok := rfl

theorem ok_of_status (r : Resp) (hok : r.ok = true) :
    ¬ (r.status_code = 429) ∧ ¬ (400 ≤ r.status_code ∧ r.status_code < 600) := by
  have hn := (ok_iff r).mp hok
  exact ⟨fun h => hn ⟨by omega, by omega⟩, hn⟩

theorem notFalsy_cursor (o : Option String) (h : isFalsy o = false) :
    ∃ s, o = some s ∧ s ≠ "" := by
  cases o with
  | none => simp [isFalsy] at h
  | some s =>
    refine ⟨s, rfl, ?_⟩
    simpa [isFalsy] using h

theorem get_final (r : Resp) (server : List Page)
    (h : isFalsy r.page.nextCursor = true) :
    Paginate.get r server = .finalPage := by
  cases hc : r.page.nextCursor with
  | none => simp [Paginate.get, hc]
  | some s =>
    rw [hc] at h
    simp [isFalsy] at h
    simp [Paginate.get, hc, h]

theorem post_final (r : Resp) (server : List Page)
    (h : isFalsy r.page.nextCursor = true) :
    Paginate.post r server = .finalPage := by
  cases hc : r.page.nextCursor with
  | none => simp [Paginate.post, hc]
  | some s =>
    rw [hc] at h
    simp [isFalsy] at h
    simp [Paginate.post, hc, h]

theorem get_fetch (r : Resp) (p : Page) (rest : List Page) (nxt : String)
    (hc : r.page.nextCursor = some nxt) (hne : nxt ≠ "") :
    Paginate.get r (p :: rest)
      = .fetched ⟨p, ⟨"GET", r.req.url, r.req.headers,
          setKey r.req.params "from-cursor" nxt, []⟩⟩ rest := by
  simp [Paginate.get, hc, hne, response_to_url, response_to_params]

theorem post_fetch (r : Resp) (p : Page) (rest : List Page) (nxt : String)
    (hc : r.page.nextCursor = some nxt) (hne : nxt ≠ "") :
    Paginate.post r (p :: rest)
      = .fetched ⟨p, ⟨"POST", r.req.url, r.req.headers, [],
          setKey r.req.body "from-cursor" nxt⟩⟩ rest := by
  simp [Paginate.post, hc, hne, response_to_url, response_to_body]

theorem next_none (server : List Page) :
    Paginate.next ⟨none, server⟩ = (.stopIteration, ⟨none, server⟩) := rfl

theorem next_notOk (r : Resp) (server : List Page) (h : r.ok = false) :
    Paginate.next ⟨some r, server⟩ = (.stopIteration, ⟨some r, server⟩) := by
  simp [Paginate.next, h]

theorem next_ok_get_final (r : Resp) (server : List Page)
    (hok : r.ok = true) (hm : r.req.method = "GET")
    (hfin : Paginate.get r server = .finalPage) :
    Paginate.next ⟨some r, server⟩ = (.yielded r, ⟨none, server⟩) := by
  obtain ⟨h429, hn⟩ := ok_of_status r hok
  simp [Paginate.next, hok, h429, hn, hm, hfin]

theorem next_ok_get_fetched (r r2 : Resp) (server rest : List Page)
    (hok : r.ok = true) (hm : r.req.method = "GET")
    (hf : Paginate.get r server = .fetched r2 rest) :
    Paginate.next ⟨some r, server⟩ = (.yielded r, ⟨some r2, rest⟩) := by
  obtain ⟨h429, hn⟩ := ok_of_status r hok
  simp [Paginate.next, hok, h429, hn, hm, hf]

theorem next_ok_get_script (r : Resp) (server : List Page)
    (hok : r.ok = true) (hm : r.req.method = "GET")
    (hs : Paginate.get r server = .scriptEnded) :
    Paginate.next ⟨some r, server⟩ = (.scriptEnded, ⟨some r, server⟩) := by
  obtain ⟨h429, hn⟩ := ok_of_status r hok
  simp [Paginate.next, hok, h429, hn, hm, hs]

theorem next_ok_post_final (r : Resp) (server : List Page)
    (hok : r.ok = true) (hm : r.req.method = "POST")
    (hfin : Paginate.post r server = .finalPage) :
    Paginate.next ⟨some r, server⟩ = (.yielded r, ⟨none, server⟩) := by
  obtain ⟨h429, hn⟩ := ok_of_status r hok
  simp [Paginate.next, hok, h429, hn, hm, hfin]

theorem next_ok_post_fetched (r r2 : Resp) (server rest : List Page)
    (hok : r.ok = true) (hm : r.req.method = "POST")
    (hf : Paginate.post r server = .fetched r2 rest) :
    Paginate.next ⟨some r, server⟩ = (.yielded r, ⟨some r2, rest⟩) := by
  obtain ⟨h429, hn⟩ := ok_of_status r hok
  simp [Paginate.next, hok, h429, hn, hm, hf]

theorem next_ok_post_script (r : Resp) (server : List Page)
    (hok : r.ok = true) (hm : r.req.method = "POST")
    (hs : Paginate.post r server = .scriptEnded) :
    Paginate.next ⟨some r, server⟩ = (.scriptEnded, ⟨some r, server⟩) := by
  obtain ⟨h429, hn⟩ := ok_of_status r hok
  simp [Paginate.next, hok, h429, hn, hm, hs]

theorem next_other_method (r : Resp) (server : List Page)
    (hok : r.ok = true) (hg : ¬ (r.req.method = "GET"))
    (hp : ¬ (r.req.method = "POST")) :
    Paginate.next ⟨some r, server⟩ = (.valueError r.req.method, ⟨some r, server⟩) := by
  obtain ⟨h429, hn⟩ := ok_of_status r hok
  simp [Paginate.next, hok, h429, hn, hg, hp]

theorem run_succ (fuel : Nat) (st : PagState) :
    Paginate.run (fuel + 1) st
      = match Paginate.next st with
        | (.stopIteration, st2) => ([], .done, st2)
        | (.rateLimited, st2) => Paginate.run fuel st2
        | (.httpError c, st2) => ([], .httpFailure c, st2)
        | (.valueError m, st2) => ([], .methodFailure m, st2)
        | (.scriptEnded, st2) => ([], .scriptEnded, st2)
        | (.yielded r, st2) =>
          let out := Paginate.run fuel st2
          (r :: out.1, out.2.1, out.2.2) := rfl

theorem run_stop (fuel : Nat) (st st2 : PagState)
    (h : Paginate.next st = (.stopIteration, st2)) :
    Paginate.run (fuel + 1) st = ([], .done, st2) := by
  rw [run_succ, h]

theorem run_yield (fuel : Nat) (st st2 : PagState) (r : Resp)
    (h : Paginate.next st = (.yielded r, st2)) :
    Paginate.run (fuel + 1) st
      = (r :: (Paginate.run fuel st2).1,
         (Paginate.run fuel st2).2.1, (Paginate.run fuel st2).2.2) := by
  rw [run_succ, h]

theorem getVal_setKey_self (m : List (String × String)) (k v : String) :
    getVal k (setKey m k v) = some v := by
  induction m with
  | nil => simp [setKey, getVal]
  | cons a t ih =>
    obtain ⟨k2, v2⟩ := a
    by_cases h : k2 = k
    · simp [setKey, getVal, h]
    · simp [setKey, getVal, h, ih]

theorem getVal_setKey_other (m : List (String × String)) (k v k2 : String)
    (h : k2 ≠ k) :
    getVal k2 (setKey m k v) = getVal k2 m := by
  have hk : ¬ (k = k2) := fun hh => h hh.symm
  induction m with
  | nil => simp [setKey, getVal, hk]
  | cons a t ih =>
    obtain ⟨k3, v3⟩ := a
    by_cases h3 : k3 = k
    · subst h3
      simp [setKey, getVal, hk]
    · simp [setKey, getVal, h3, ih]

theorem getVal_eq_none (k : String) (l : List (String × String))
    (h : ∀ kv ∈ l, kv.1 ≠ k) : getVal k l = none := by
  induction l with
  | nil => rfl
  | cons a t ih =>
    obtain ⟨k2, v2⟩ := a
    have ha : k2 ≠ k := h (k2, v2) (List.mem_cons_self _ _)
    simp [getVal, ha]
    exact ih fun kv hkv => h kv (List.mem_cons_of_mem _ hkv)

theorem cursorChain_last (l : List Page) :
    ∀ p : Page, cursorChain l = true → l.getLast? = some p →
      isFalsy p.nextCursor = true := by
  induction l with
  | nil => intro p _ hl; simp at hl
  | cons a t ih =>
    intro p hc hl
    cases t with
    | nil =>
      simp at hl
      subst hl
      simpa [cursorChain] using hc
    | cons b t2 =>
      rw [List.getLast?_cons_cons] at hl
      simp [cursorChain, Bool.and_eq_true] at hc
      exact ih p hc.2 hl

theorem pages_getLast (l : List Resp) :
    (l.map Resp.page).getLast? = Option.map Resp.page l.getLast? := by
  induction l with
  | nil => rfl
  | cons a t ih =>
    cases t with
    | nil => rfl
    | cons b t2 =>
      simpa [List.getLast?_cons_cons] using ih

/-- Core induction: started on the first response of a well-formed page
sequence whose remaining pages the server script serves in order, the
iteration yields each page exactly once, in order, and ends normally. -/
theorem run_chain (rest : List Page) :
    ∀ (p0 : Page) (rq : Req) (fuel : Nat),
      (rq.method = "GET" ∨ rq.method = "POST") →
      (∀ p ∈ p0 :: rest, p.ok = true) →
      cursorChain (p0 :: rest) = true →
      rest.length + 1 < fuel →
      (Paginate.run fuel ⟨some ⟨p0, rq⟩, rest⟩).1.map Resp.page = p0 :: rest
      ∧ (Paginate.run fuel ⟨some ⟨p0, rq⟩, rest⟩).2.1 = .done := by
  induction rest with
  | nil =>
    intro p0 rq fuel hm hok hchain hfuel
    obtain ⟨f, rfl⟩ : ∃ f, fuel = f + 1 + 1 := ⟨fuel - 2, by omega⟩
    have hok0 : (Resp.mk p0 rq).ok = true := by
      rw [resp_ok]; exact hok p0 (List.mem_cons_self _ _)
    have hfalsy : isFalsy p0.nextCursor = true := by
      simpa [cursorChain] using hchain
    have hnext : Paginate.next ⟨some ⟨p0, rq⟩, []⟩ = (.yielded ⟨p0, rq⟩, ⟨none, []⟩) := by
      rcases hm with hmg | hmp
      · exact next_ok_get_final _ _ hok0 hmg (get_final _ _ hfalsy)
      · exact next_ok_post_final _ _ hok0 hmp (post_final _ _ hfalsy)
    rw [run_yield (f + 1) _ _ _ hnext, run_stop f _ _ (next_none [])]
    simp
  | cons q rest2 ih =>
    intro p0 rq fuel hm hok hchain hfuel
    obtain ⟨f, rfl⟩ : ∃ f, fuel = f + 1 := ⟨fuel - 1, by omega⟩
    have hok0 : (Resp.mk p0 rq).ok = true := by
      rw [resp_ok]; exact hok p0 (List.mem_cons_self _ _)
    have hchain2 : cursorChain (q :: rest2) = true := by
      simp [cursorChain, Bool.and_eq_true] at hchain
      exact hchain.2
    have hfalsy0 : isFalsy p0.nextCursor = false := by
      simp [cursorChain, Bool.and_eq_true] at hchain
      exact hchain.1
    obtain ⟨nxt, hc, hne⟩ := notFalsy_cursor _ hfalsy0
    rcases hm with hmg | hmp
    · have hnext : Paginate.next ⟨some ⟨p0, rq⟩, q :: rest2⟩
          = (.yielded ⟨p0, rq⟩,
             ⟨some ⟨q, ⟨"GET", rq.url, rq.headers,
                        setKey rq.params "from-cursor" nxt, []⟩⟩, rest2⟩) :=
        next_ok_get_fetched _ _ _ _ hok0 hmg (get_fetch _ _ _ _ hc hne)
      rw [run_yield f _ _ _ hnext]
      have hrec := ih q ⟨"GET", rq.url, rq.headers,
          setKey rq.params "from-cursor" nxt, []⟩ f (Or.inl rfl)
        (fun p hp => hok p (List.mem_cons_of_mem _ hp)) hchain2 (by
          simp at hfuel ⊢; omega)
      exact ⟨by simp [hrec.1], hrec.2⟩
    · have hnext : Paginate.next ⟨some ⟨p0, rq⟩, q :: rest2⟩
          = (.yielded ⟨p0, rq⟩,
             ⟨some ⟨q, ⟨"POST", rq.url, rq.headers, [],
                        setKey rq.body "from-cursor" nxt⟩⟩, rest2⟩) :=
        next_ok_post_fetched _ _ _ _ hok0 hmp (post_fetch _ _ _ _ hc hne)
      rw [run_yield f _ _ _ hnext]
      have hrec := ih q ⟨"POST", rq.url, rq.headers, [],
          setKey rq.body "from-cursor" nxt⟩ f (Or.inr rfl)
        (fun p hp => hok p (List.mem_cons_of_mem _ hp)) hchain2 (by
          simp at hfuel ⊢; omega)
      exact ⟨by simp [hrec.1], hrec.2⟩

theorem ok_false_of_429 (r : Resp) (h : r.status_code = 429) : r.ok = false := by
  have h2 : r.page.status = 429 := h
  unfold Resp.ok Page.ok
  rw [h2]
  rfl

theorem cons_getLast_isSome (a : Page) (l : List Page) :
    ∃ p, (a :: l).getLast? = some p := by
  induction l generalizing a with
  | nil => exact ⟨a, rfl⟩
  | cons b t ih =>
    obtain ⟨p, hp⟩ := ih b
    exact ⟨p, by rw [List.getLast?_cons_cons]; exact hp⟩

/-- Backoff induction: after `n` rate-limited attempts starting at attempt
index `i`, a successful attempt is returned with its attempt count. -/
theorem backoff_success (n : Nat) (script : Nat → Page) :
    ∀ i : Nat, (∀ j, j < n → (script (i + j)).status = 429) →
      Page.ok (script (i + n)) = true →
      requestWithBackoff script i (n + 1) = .success (script (i + n)) (i + n + 1) := by
  induction n with
  | zero =>
    intro i h429 hok
    simp only [Nat.add_zero] at hok
    simp only [Page.ok, decide_eq_true_eq] at hok
    have h429i : ¬ ((script i).status = 429) := fun h => hok ⟨by omega, by omega⟩
    simp [requestWithBackoff, request, h429i, hok]
  | succ n ih =>
    intro i h429 hok
    have h0 : (script i).status = 429 := by simpa using h429 0 (Nat.succ_pos n)
    have hstep : requestWithBackoff script i (n + 1 + 1)
        = requestWithBackoff script (i + 1) (n + 1) := by
      simp [requestWithBackoff, request, h0]
    rw [hstep]
    have h429s : ∀ j, j < n → (script (i + 1 + j)).status = 429 := by
      intro j hj
      have hx := h429 (j + 1) (by omega)
      rw [show i + 1 + j = i + (j + 1) from by omega]
      exact hx
    have hoks : Page.ok (script (i + 1 + n)) = true := by
      rw [show i + 1 + n = i + (n + 1) from by omega]
      exact hok
    have hr := ih (i + 1) h429s hoks
    rw [show i + (n + 1) = i + 1 + n from by omega]
    exact hr

/-! ## The claims -/

/-- C1: for every finite sequence of pages in which every page but the last
carries a truthy continuation token and the last does not, iterating the
Paginator started on the first page yields exactly the pages, in
server-returned order, ends normally, and the last yielded item lacks a
continuation token; the one-page case is the instance `rest = []`. -/
theorem c1_paginator_yields_all_pages (p0 : Page) (rest : List Page) (rq : Req)
    (fuel : Nat)
    (hm : rq.method = "GET" ∨ rq.method = "POST")
    (hok : ∀ p ∈ p0 :: rest, p.ok = true)
    (hchain : cursorChain (p0 :: rest) = true)
    (hfuel : rest.length + 1 < fuel) :
    (Paginate.run fuel ⟨some ⟨p0, rq⟩, rest⟩).1.map Resp.page = p0 :: rest
    ∧ (Paginate.run fuel ⟨some ⟨p0, rq⟩, rest⟩).2.1 = .done
    ∧ ((Paginate.run fuel ⟨some ⟨p0, rq⟩, rest⟩).1.getLast?).map
        (fun r => isFalsy r.page.nextCursor) = some true := by
  obtain ⟨h1, h2⟩ := run_chain rest p0 rq fuel hm hok hchain hfuel
  refine ⟨h1, h2, ?_⟩
  cases hL : (Paginate.run fuel ⟨some ⟨p0, rq⟩, rest⟩).1.getLast? with
  | none =>
    have hh : (p0 :: rest).getLast? = none := by
      rw [← h1, pages_getLast, hL]
      rfl
    obtain ⟨p, hp⟩ := cons_getLast_isSome p0 rest
    rw [hp] at hh
    exact absurd hh (by simp)
  | some rl =>
    have hh : (p0 :: rest).getLast? = some rl.page := by
      rw [← h1, pages_getLast, hL]
      rfl
    have := cursorChain_last (p0 :: rest) rl.page hchain hh
    simp [this]

/-- Witness for C1: the two-page scenario of the spec (`P0` with cursor
`"c1"`, `P1` final) yields exactly `[P0, P1]` and terminates. -/
theorem c1_witness :
    (Paginate.run 4 ⟨some ⟨pg0, rqGET⟩, [pgLast]⟩).1.map Resp.page = pg0 :: [pgLast]
    ∧ (Paginate.run 4 ⟨some ⟨pg0, rqGET⟩, [pgLast]⟩).2.1 = .done
    ∧ ((Paginate.run 4 ⟨some ⟨pg0, rqGET⟩, [pgLast]⟩).1.getLast?).map
        (fun r => isFalsy r.page.nextCursor) = some true :=
  c1_paginator_yields_all_pages pg0 [pgLast] rqGET 4 (Or.inl rfl)
    (by decide) (by decide) (by decide)

/-- C2: the retry decorator is written `max_value=10`, which caps the wait
between attempts, not the attempt count (`max_tries` keeps its default
`None`); against a server answering 429 on the first ten attempts the code
performs an eleventh attempt and returns its payload instead of failing
after at most ten, and ten consecutive 429 responses leave it still
retrying, with no fatal error raised. -/
theorem c2_no_attempt_ceiling :
    requestWithBackoff (fun i => if i < 10 then ⟨429, none, 0⟩ else ⟨200, none, 7⟩) 0 11
      = .success ⟨200, none, 7⟩ 11
    ∧ requestWithBackoff (fun _ => ⟨429, none, 0⟩) 0 10 = .outOfFuel :=
  ⟨by decide, by decide⟩

/-- C3 (amended): when the token endpoint's JSON payload carries no
`access_token` field, `authenticate` returns `None` to the caller — a
silently returned value from `dict.get`, not an exception. -/
theorem c3_missing_token_returns_none (client_id client_secret url : String)
    (server : String → List (String × String) → List (String × String))
    (h : ∀ u payload kv, kv ∈ server u payload → kv.1 ≠ "access_token") :
    authenticate client_id client_secret url server = none := by
  simp only [authenticate]
  exact getVal_eq_none _ _ fun kv hkv => h _ _ kv hkv

/-- Counterexample for C3 as stated: on a payload without `access_token` the
call evaluates to the ordinary value `none` (Python `None`) — no
`AuthenticationFailure` or any other exception exists in this code path. -/
theorem c3_cex :
    authenticate "my-id" "my-secret" "https://api.signal-ai.com"
      (fun _ _ => [("error", "invalid_client")]) = none := by
  decide

/-- Witness for C3 (amended) at a concrete malformed server response. -/
theorem c3_witness :
    authenticate "my-id" "my-secret" "https://api.signal-ai.com"
      (fun _ _ => [("error", "server_error")]) = none :=
  c3_missing_token_returns_none "my-id" "my-secret" "https://api.signal-ai.com"
    (fun _ _ => [("error", "server_error")])
    (by
      intro u payload kv hkv
      simp at hkv
      simp [hkv])

/-- C4 (amended): the Request Executor does return the successful response
after `n < 10` consecutive 429 responses (indeed after any finite number,
since no attempt ceiling is configured), each retry re-running the same call;
the Paginator does not: a held 429 response is falsy for the
`if not response` check, so every produce-next call raises `StopIteration`
at once — the state is unchanged, no network request is issued, and the
successful response is never returned. -/
theorem c4_retry_behaviour (script : Nat → Page) (n : Nat) (r : Resp)
    (server : List Page) (fuel : Nat)
    (hn : n < 10)
    (h429 : ∀ j, j < n → (script j).status = 429)
    (hok : Page.ok (script n) = true)
    (h429r : r.status_code = 429) :
    requestWithBackoff script 0 (n + 1) = .success (script n) (n + 1)
    ∧ Paginate.run (fuel + 1) ⟨some r, server⟩ = ([], .done, ⟨some r, server⟩) := by
  constructor
  · have hb := backoff_success n script 0 (by simpa using h429) (by simpa using hok)
    simpa using hb
  · exact run_stop fuel _ _ (next_notOk r server (ok_false_of_429 r h429r))

/-- Counterexample for C4 as stated: with pages `pg0` (cursor `"c1"`), then a
429 page, then a successful final page, the iteration yields only the first
page and ends with `StopIteration`, the 429 response still held and the
successful page still unfetched in the server script. -/
theorem c4_cex :
    Paginate.run 10 ⟨some ⟨pg0, rqGET⟩, [pg429, pgLast]⟩
      = ([⟨pg0, rqGET⟩], .done,
         ⟨some ⟨pg429, ⟨"GET", "https://api.signal-ai.com/entities", [],
                        [("name", "Environment"), ("from-cursor", "c1")], []⟩⟩,
          [pgLast]⟩) := by
  decide

/-- Witness for C4 (amended): two 429 answers then success for the executor;
a held 429 response for the paginator. -/
theorem c4_witness :
    requestWithBackoff (fun j => if j < 2 then ⟨429, none, 0⟩ else pgLast) 0 3
      = .success pgLast 3
    ∧ Paginate.run 5 ⟨some r429, [pgLast]⟩ = ([], .done, ⟨some r429, [pgLast]⟩) :=
  c4_retry_behaviour (fun j => if j < 2 then ⟨429, none, 0⟩ else pgLast) 2
    r429 [pgLast] 4 (by decide) (by decide) (by decide) (by decide)

/-- C5: advancing a request by the Paginator with a truthy cursor sets
exactly the `from-cursor` entry of the previous query parameters (GET) or of
the previous JSON body (POST), leaving every other entry unchanged. -/
theorem c5_params_preserved (r : Resp) (cur k : String) (p : Page)
    (rest : List Page)
    (hcur : r.page.nextCursor = some cur) (hne : cur ≠ "")
    (hk : k ≠ "from-cursor") :
    Paginate.get r (p :: rest)
      = .fetched ⟨p, ⟨"GET", r.req.url, r.req.headers,
          setKey r.req.params "from-cursor" cur, []⟩⟩ rest
    ∧ Paginate.post r (p :: rest)
      = .fetched ⟨p, ⟨"POST", r.req.url, r.req.headers, [],
          setKey r.req.body "from-cursor" cur⟩⟩ rest
    ∧ getVal "from-cursor" (setKey r.req.params "from-cursor" cur) = some cur
    ∧ getVal k (setKey r.req.params "from-cursor" cur) = getVal k r.req.params
    ∧ getVal "from-cursor" (setKey r.req.body "from-cursor" cur) = some cur
    ∧ getVal k (setKey r.req.body "from-cursor" cur) = getVal k r.req.body :=
  ⟨get_fetch r p rest cur hcur hne, post_fetch r p rest cur hcur hne,
   getVal_setKey_self _ _ _, getVal_setKey_other _ _ _ _ hk,
   getVal_setKey_self _ _ _, getVal_setKey_other _ _ _ _ hk⟩

/-- Witness for C5: parameters `{a: 1}` advanced with cursor `"tok"` become
exactly `{a: 1, from-cursor: "tok"}`, with `a` unchanged, for GET and POST. -/
theorem c5_witness :
    Paginate.get rA (pgLast :: [])
      = .fetched ⟨pgLast, ⟨"GET", rA.req.url, rA.req.headers,
          setKey rA.req.params "from-cursor" "tok", []⟩⟩ []
    ∧ Paginate.post rA (pgLast :: [])
      = .fetched ⟨pgLast, ⟨"POST", rA.req.url, rA.req.headers, [],
          setKey rA.req.body "from-cursor" "tok"⟩⟩ []
    ∧ getVal "from-cursor" (setKey rA.req.params "from-cursor" "tok") = some "tok"
    ∧ getVal "a" (setKey rA.req.params "from-cursor" "tok") = getVal "a" rA.req.params
    ∧ getVal "from-cursor" (setKey rA.req.body "from-cursor" "tok") = some "tok"
    ∧ getVal "a" (setKey rA.req.body "from-cursor" "tok") = getVal "a" rA.req.body :=
  c5_params_preserved rA "tok" "a" pgLast [] rfl (by decide) (by decide)

/-- C6 (amended): a status in 400..599 other than 429 is surfaced by
`raise_for_status` as a non-retryable HTTP error on the very first attempt,
and status 429 alone produces the retryable `RateLimitError`; a non-2xx
status outside 400..599 (e.g. 304) is not an error for `raise_for_status`
and is returned as a success. -/
theorem c6_http_error_immediate (script : Nat → Page) (fuel : Nat) (p : Page)
    (h4 : 400 ≤ (script 0).status) (h6 : (script 0).status < 600)
    (hne : ¬ ((script 0).status = 429)) :
    requestWithBackoff script 0 (fuel + 1) = .httpError (script 0).status 1
    ∧ (request p = .rateLimit ↔ p.status = 429) := by
  constructor
  · simp [requestWithBackoff, request, hne, h4, h6]
  · by_cases h : p.status = 429
    · simp [request, h]
    · simp only [request, if_neg h]
      refine ⟨fun hc => ?_, fun hc => absurd hc h⟩
      by_cases hhh : 400 ≤ p.status ∧ p.status < 600 <;> simp [hhh] at hc

/-- Counterexample for C6 as stated: a non-2xx status 304 is returned as a
successful response on the first attempt instead of being surfaced as an
HTTP error. -/
theorem c6_cex :
    requestWithBackoff (fun _ => ⟨304, none, 5⟩) 0 3
      = .success ⟨304, none, 5⟩ 1 := by
  decide

/-- Witness for C6 (amended) at status 503 and at the 429 instance of the
retryable condition. -/
theorem c6_witness :
    requestWithBackoff (fun _ => ⟨503, none, 9⟩) 0 4 = .httpError 503 1
    ∧ (request ⟨429, none, 0⟩ = .rateLimit ↔ (⟨429, none, 0⟩ : Page).status = 429) :=
  c6_http_error_immediate (fun _ => ⟨503, none, 9⟩) 3 ⟨429, none, 0⟩
    (by decide) (by decide) (by decide)

/-- C7: whenever a produce-next step yields an item, that item is the
response the state already held (fetched during the previous step's
transition, or supplied at construction); and for a first response with no
continuation token the single produced item is that response itself, with
the server script untouched — no network call is needed to produce it. -/
theorem c7_yields_previously_held (st st2 : PagState) (r r0 : Resp)
    (server : List Page)
    (h : Paginate.next st = (.yielded r, st2))
    (hok : r0.ok = true) (hm : r0.req.method = "GET")
    (hf : isFalsy r0.page.nextCursor = true) :
    st.held = some r
    ∧ Paginate.run 2 ⟨some r0, server⟩ = ([r0], .done, ⟨none, server⟩) := by
  constructor
  · obtain ⟨held, srv⟩ := st
    cases held with
    | none =>
      rw [next_none] at h
      simp at h
    | some resp =>
      by_cases hok2 : resp.ok = true
      case neg =>
        have hfalse : resp.ok = false := by
          revert hok2; cases resp.ok <;> simp
        rw [next_notOk _ _ hfalse] at h
        simp at h
      case pos =>
        by_cases hmg : resp.req.method = "GET"
        · cases hget : Paginate.get resp srv with
          | finalPage =>
            rw [next_ok_get_final _ _ hok2 hmg hget] at h
            simp [Prod.ext_iff] at h
            simp [h.1]
          | fetched r2 rest =>
            rw [next_ok_get_fetched _ _ _ _ hok2 hmg hget] at h
            simp [Prod.ext_iff] at h
            simp [h.1]
          | scriptEnded =>
            rw [next_ok_get_script _ _ hok2 hmg hget] at h
            simp at h
        · by_cases hmp : resp.req.method = "POST"
          · cases hpost : Paginate.post resp srv with
            | finalPage =>
              rw [next_ok_post_final _ _ hok2 hmp hpost] at h
              simp [Prod.ext_iff] at h
              simp [h.1]
            | fetched r2 rest =>
              rw [next_ok_post_fetched _ _ _ _ hok2 hmp hpost] at h
              simp [Prod.ext_iff] at h
              simp [h.1]
            | scriptEnded =>
              rw [next_ok_post_script _ _ hok2 hmp hpost] at h
              simp at h
          · rw [next_other_method _ _ hok2 hmg hmp] at h
            simp at h
  · have hnext : Paginate.next ⟨some r0, server⟩ = (.yielded r0, ⟨none, server⟩) :=
      next_ok_get_final _ _ hok hm (get_final _ _ hf)
    have hs : Paginate.run 1 (⟨none, server⟩ : PagState)
        = ([], .done, ⟨none, server⟩) := run_stop 0 _ _ (next_none server)
    have hy : Paginate.run 2 (⟨some r0, server⟩ : PagState)
        = (r0 :: (Paginate.run 1 (⟨none, server⟩ : PagState)).1,
           (Paginate.run 1 (⟨none, server⟩ : PagState)).2.1,
           (Paginate.run 1 (⟨none, server⟩ : PagState)).2.2) :=
      run_yield 1 _ _ _ hnext
    rw [hy, hs]

/-- Witness for C7 at a concrete single-page state. -/
theorem c7_witness :
    (PagState.mk (some rDone) []).held = some rDone
    ∧ Paginate.run 2 ⟨some rDone, []⟩ = ([rDone], .done, ⟨none, []⟩) :=
  c7_yields_previously_held ⟨some rDone, []⟩ ⟨none, []⟩ rDone rDone []
    (by decide) (by decide) (by decide) (by decide)

/-- C8: the request the Paginator derives carries the continuation cursor in
exactly one place, selected by method: a derived GET request carries
`from-cursor` in its query parameters and has no body; a derived POST
request carries `from-cursor` in its body and has no query parameters. -/
theorem c8_cursor_in_one_place (r r2 r3 : Resp) (cur : String) (p : Page)
    (rest rest2 : List Page)
    (hcur : r.page.nextCursor = some cur) (hne : cur ≠ "")
    (h2 : Paginate.get r (p :: rest) = .fetched r2 rest)
    (h3 : Paginate.post r (p :: rest2) = .fetched r3 rest2) :
    r2.req.method = "GET" ∧ getVal "from-cursor" r2.req.params = some cur
    ∧ r2.req.body = []
    ∧ r3.req.method = "POST" ∧ getVal "from-cursor" r3.req.body = some cur
    ∧ r3.req.params = [] := by
  rw [get_fetch r p rest cur hcur hne] at h2
  rw [post_fetch r p rest2 cur hcur hne] at h3
  injection h2 with h2a h2b
  injection h3 with h3a h3b
  subst h2a
  subst h3a
  exact ⟨rfl, getVal_setKey_self _ _ _, rfl, rfl, getVal_setKey_self _ _ _, rfl⟩

/-- Witness for C8 at the concrete advanced requests derived from `rA`. -/
theorem c8_witness :
    rGetNext.req.method = "GET"
    ∧ getVal "from-cursor" rGetNext.req.params = some "tok"
    ∧ rGetNext.req.body = []
    ∧ rPostNext.req.method = "POST"
    ∧ getVal "from-cursor" rPostNext.req.body = some "tok"
    ∧ rPostNext.req.params = [] :=
  c8_cursor_in_one_place rA rGetNext rPostNext "tok" pgLast [] []
    rfl (by decide) (by decide) (by decide)

/-- C9: the terminal state is absorbing — yielding the final item (held
response successful, cursor missing or falsy) sets the held response to
`None` without touching the server, and with the held response `None` every
produce-next call raises `StopIteration`, again without touching the
server. -/
theorem c9_terminal_state_absorbing (r : Resp) (server server2 : List Page)
    (hok : r.ok = true) (hm : r.req.method = "GET" ∨ r.req.method = "POST")
    (hf : isFalsy r.page.nextCursor = true) :
    Paginate.next ⟨some r, server⟩ = (.yielded r, ⟨none, server⟩)
    ∧ Paginate.next ⟨none, server2⟩ = (.stopIteration, ⟨none, server2⟩) := by
  constructor
  · rcases hm with hmg | hmp
    · exact next_ok_get_final _ _ hok hmg (get_final _ _ hf)
    · exact next_ok_post_final _ _ hok hmp (post_final _ _ hf)
  · exact next_none server2

/-- Witness for C9 at concrete states with non-empty server scripts. -/
theorem c9_witness :
    Paginate.next ⟨some rDone, [pg429]⟩ = (.yielded rDone, ⟨none, [pg429]⟩)
    ∧ Paginate.next ⟨none, [pgLast]⟩ = (.stopIteration, ⟨none, [pgLast]⟩) :=
  c9_terminal_state_absorbing rDone [pg429] [pgLast]
    (by decide) (Or.inl rfl) (by decide)

/-- C10 (amended): of the three raises the claim lists, only `ValueError` is
reachable — a truthy held response whose request method is neither GET nor
POST raises it with the held response and server script unchanged; a held
429 response never reaches the `RateLimitError` line (or `raise_for_status`):
being falsy for `if not response`, it raises `StopIteration`, likewise with
the state unchanged and no network request issued. -/
theorem c10_raise_leaves_state (r r2 : Resp) (server server2 : List Page)
    (hok : r.ok = true) (hg : ¬ (r.req.method = "GET"))
    (hp : ¬ (r.req.method = "POST"))
    (h429 : r2.status_code = 429) :
    Paginate.next ⟨some r, server⟩ = (.valueError r.req.method, ⟨some r, server⟩)
    ∧ Paginate.next ⟨some r2, server2⟩ = (.stopIteration, ⟨some r2, server2⟩) :=
  ⟨next_other_method r server hok hg hp,
   next_notOk r2 server2 (ok_false_of_429 r2 h429)⟩

/-- Counterexample for C10 as stated: a held 429 response makes `__next__`
raise `StopIteration`, not `RateLimitError`. -/
theorem c10_cex :
    Paginate.next ⟨some r429, []⟩ = (.stopIteration, ⟨some r429, []⟩) := by
  decide

/-- Witness for C10 (amended) at a held PUT response and a held 429
response. -/
theorem c10_witness :
    Paginate.next ⟨some rPUT, []⟩ = (.valueError "PUT", ⟨some rPUT, []⟩)
    ∧ Paginate.next ⟨some r429, [pgLast]⟩
      = (.stopIteration, ⟨some r429, [pgLast]⟩) :=
  c10_raise_leaves_state rPUT r429 [] [pgLast]
    (by decide) (by decide) (by decide) (by decide)
